import Mathlib

/-!
Shallow embedding of the core of `src/panopticon/main.py`: the workspace
cache (`clone_repo`, `get_authenticated_url`), the language detector
(`detect_repository_languages`, `LANGUAGE_PATTERNS`), the analyzer
dispatch (`get_analysis_tools`, `run_language_specific_analysis`,
`analyze_code_quality`) and the per-tool runners (`run_pylint_analysis`,
`run_bandit_analysis`, subprocess invocations).

External effects (filesystem, git, subprocesses, JSON parsing, the SHA-256
digest) are modelled as explicit parameters or oracle records; the Lean
definitions mirror the Python control flow over those oracles.
-/

/-! ## String helpers mirroring Python primitives -/

/-- List-level prefix test (`needle` is a prefix of the second list). -/
def prefixEq : List Char → List Char → Bool
  | [], _ => true
  | _ :: _, [] => false
  | a :: as, b :: bs => a == b && prefixEq as bs

/-- Occurrence test for `needle` anywhere in `hay`, on char lists. -/
def listHasSub (needle : List Char) : List Char → Bool
  | [] => needle.isEmpty
  | c :: rest => prefixEq needle (c :: rest) || listHasSub needle rest

/-- Python's `needle in hay` substring test. -/
def containsSub (hay needle : String) : Bool :=
  listHasSub needle.data hay.data

/-- One replacement pass over a char list: every non-overlapping occurrence
of `pat` (non-empty) is replaced by `rep`, left to right. -/
def replaceListAux (pat rep : List Char) : List Char → List Char
  | [] => []
  | c :: rest =>
    if pat.length ≠ 0 ∧ prefixEq pat (c :: rest) then
      rep ++ replaceListAux pat rep (List.drop (pat.length - 1) rest)
    else
      c :: replaceListAux pat rep rest
termination_by l => l.length
decreasing_by
  · simp only [List.length_drop, List.length_cons]
    omega
  · simp only [List.length_cons]
    omega

/-- Python's `s.replace(pat, rep)` for a non-empty pattern. -/
def strReplace (s pat rep : String) : String :=
  String.mk (replaceListAux pat.data rep.data s.data)

/-- ASCII lowering of one character (models `str.lower` for the ASCII
language names the program uses). -/
def lowerChar (c : Char) : Char :=
  if 65 ≤ c.toNat ∧ c.toNat ≤ 90 then Char.ofNat (c.toNat + 32) else c

/-- Python's `s.lower()` on ASCII strings. -/
def strToLower (s : String) : String := String.mk (s.data.map lowerChar)

/-- First `n` characters of a string (Python's `f.read(n)` on the file's
text content). -/
def strTake (s : String) (n : Nat) : String := String.mk (s.data.take n)

/-- Python's `s.startswith(p)`. -/
def startsWithStr (s p : String) : Bool := prefixEq p.data s.data

/-- Extension part of `os.path.splitext` on a path component: the suffix
from the last dot, unless every character before that dot is itself a dot
(so `.gitignore` has no extension). -/
def extOf (name : String) : String :=
  let cs := name.data
  let dots := (List.range cs.length).filter (fun i => cs.getD i ' ' == '.')
  match dots.getLast? with
  | none => ""
  | some i =>
    if (List.range i).any (fun j => cs.getD j ' ' != '.') then
      String.mk (cs.drop i)
    else ""

/-! ## SourceIdentity and the cache key (`clone_repo`, lines 270-275) -/

/-- Input schema `GitLabCredentials` (a bare api key). -/
structure GitLabCredentials where
  api_key : String
deriving DecidableEq, Repr

/-- The credential component of the cache-key f-string:
`gitlab_credentials.api_key if gitlab_credentials else ''`. -/
def credPart (creds : Option GitLabCredentials) : String :=
  match creds with
  | some c => c.api_key
  | none => ""

/-- The branch component of the cache-key f-string: `branch or 'default'`
(Python truthiness sends both `None` and `''` to `'default'`). -/
def branchPart (branch : Option String) : String :=
  match branch with
  | some b => if b == "" then "default" else b
  | none => "default"

/-- The pre-digest cache-key string
`f"{repo_url}:{api_key-or-empty}:{branch-or-default}"` of `clone_repo`. -/
def cache_key_string (repo_url : String) (creds : Option GitLabCredentials)
    (branch : Option String) : String :=
  repo_url ++ ":" ++ credPart creds ++ ":" ++ branchPart branch

/-- Cache slot directory for an identity:
`os.path.join(tempfile.gettempdir(), f"repo_cache_{sha256(key)[:12]}")`.
The SHA-256 hex digest is an explicit function parameter `digest`;
truncation to 12 characters is kept explicit. -/
def repoCacheDir (digest : String → String) (tmp : String) (repo_url : String)
    (creds : Option GitLabCredentials) (branch : Option String) : String :=
  tmp ++ "/repo_cache_" ++ (digest (cache_key_string repo_url creds branch)).take 12

/-- `get_authenticated_url`: rewrite a gitlab.com URL to carry the oauth2
token; other URLs and credential-less requests pass through. -/
def get_authenticated_url (repo_url : String)
    (creds : Option GitLabCredentials) : String :=
  match creds with
  | none => repo_url
  | some c =>
    if containsSub repo_url "gitlab.com" then
      if startsWithStr repo_url "https://" then
        strReplace repo_url "https://" ("https://oauth2:" ++ c.api_key ++ "@")
      else if startsWithStr repo_url "git@" then
        strReplace repo_url "git@gitlab.com:"
          ("https://oauth2:" ++ c.api_key ++ "@gitlab.com/")
      else repo_url
    else repo_url

/-! ## The workspace cache state machine (`clone_repo`, lines 270-303) -/

/-- Result of `Repo(temp_dir)`: bareness flag and the recorded remote URL
(`repo.remote().url`). -/
structure RepoHandle where
  bare : Bool
  remoteUrl : String
deriving DecidableEq, Repr

/-- Oracle for the external git/filesystem effects of one `clone_repo`
call: whether the slot directory exists, what opening it yields (`none`
means `Repo(temp_dir)` raised), and whether fetch / checkout / clone
succeed (`false` means the call raised). -/
structure GitEnv where
  slotExists : Bool
  openResult : Option RepoHandle
  fetchOk : Bool
  checkoutOk : Bool
  cloneOk : Bool
deriving DecidableEq, Repr

/-- Observable outcome of one `clone_repo` call: the returned path or the
raised error, plus a trace of the side effects performed. -/
structure CloneOutcome where
  /-- `Except.ok path` for a normal return, `Except.error` for the raised
  `Exception` (the spec's `SourceUnavailable`). -/
  result : Except String String
  /-- a `repo.remote().fetch()` call completed successfully -/
  fetched : Bool
  /-- a `repo.git.checkout(branch)` call completed successfully -/
  checkedOut : Bool
  /-- the pre-existing slot directory was deleted (`shutil.rmtree`) -/
  removedExisting : Bool
  /-- the partial directory of a failed clone was deleted -/
  removedPartial : Bool
  /-- `Repo.clone_from` was invoked -/
  cloneAttempted : Bool
  /-- the slot directory exists after the call -/
  finalSlotExists : Bool
deriving Repr

/-- The tail of `clone_repo`: `os.makedirs` + `Repo.clone_from`, with the
partial directory removed and the exception re-raised on failure. -/
def freshClone (env : GitEnv) (dir : String)
    (removedExisting fetched : Bool) : CloneOutcome :=
  if env.cloneOk then
    { result := Except.ok dir, fetched := fetched, checkedOut := false,
      removedExisting := removedExisting, removedPartial := false,
      cloneAttempted := true, finalSlotExists := true }
  else
    { result := Except.error "Repository cloning failed",
      fetched := fetched, checkedOut := false,
      removedExisting := removedExisting, removedPartial := true,
      cloneAttempted := true, finalSlotExists := false }

/-- `clone_repo(repo_url, gitlab_credentials, branch)` over a `GitEnv`
oracle. Mirrors the Python control flow: if the slot directory exists, try
to open it; a non-bare repo whose remote matches the authenticated URL is
fetched (and checked out when a branch was requested) and returned; any
exception in that block — including a fetch or checkout failure — and any
remote mismatch lead to `shutil.rmtree` followed by a fresh clone. -/
def clone_repo (digest : String → String) (tmp : String) (env : GitEnv)
    (repo_url : String) (creds : Option GitLabCredentials)
    (branch : Option String) : CloneOutcome :=
  let temp_dir := repoCacheDir digest tmp repo_url creds branch
  let authenticated_url := get_authenticated_url repo_url creds
  if env.slotExists then
    match env.openResult with
    | some repo =>
      if !repo.bare && (repo.remoteUrl == authenticated_url) then
        if env.fetchOk then
          match branch with
          | some _ =>
            if env.checkoutOk then
              { result := Except.ok temp_dir, fetched := true,
                checkedOut := true, removedExisting := false,
                removedPartial := false, cloneAttempted := false,
                finalSlotExists := true }
            else
              freshClone env temp_dir true true
          | none =>
            { result := Except.ok temp_dir, fetched := true,
              checkedOut := false, removedExisting := false,
              removedPartial := false, cloneAttempted := false,
              finalSlotExists := true }
        else
          freshClone env temp_dir true false
      else
        freshClone env temp_dir true false
    | none =>
      freshClone env temp_dir true false
  else
    freshClone env temp_dir false false

/-! ## Language detection (`LANGUAGE_PATTERNS`, `detect_repository_languages`) -/

/-- One entry of the `LANGUAGE_PATTERNS` table. -/
structure LangPattern where
  lang : String
  extensions : List String
  markers : List String
deriving DecidableEq, Repr

/-- The `LANGUAGE_PATTERNS` table, in source order. -/
def LANGUAGE_PATTERNS : List LangPattern :=
  [ { lang := "go", extensions := [".go"],
      markers := ["package ", "import (", "func "] },
    { lang := "java", extensions := [".java", ".kt", ".scala"],
      markers := ["public class", "package ", "import java"] },
    { lang := "python", extensions := [".py", ".pyx", ".pyi"],
      markers := ["def ", "class ", "import ", "from "] },
    { lang := "javascript", extensions := [".js", ".jsx", ".ts", ".tsx"],
      markers := ["function", "const ", "let ", "import "] } ]

/-- One file of a workspace as the walk sees it: the directory (`root` of
`os.walk`), the file name, the on-disk size (`os.path.getsize`) and the
text content handed back by `read`. -/
structure FileEntry where
  dir : String
  name : String
  size : Nat
  content : String
deriving DecidableEq, Repr

/-- A file matches a pattern when its extension is in the pattern's
extension set and at least one marker token occurs in the first kilobyte
of its content (`marker_count > 0`). -/
def matchesPat (f : FileEntry) (p : LangPattern) : Bool :=
  p.extensions.contains (extOf f.name) &&
    p.markers.any (fun m => containsSub (strTake f.content 1024) m)

/-- The walk skips a file when its directory path contains `.git` or its
size exceeds 1,000,000 bytes. -/
def skipFile (f : FileEntry) : Bool :=
  containsSub f.dir ".git" || decide (f.size > 1000000)

/-- `file_count[lang] += 1` on the `Counter`, as an association list with
insertion order. -/
def bump : List (String × Nat) → String → List (String × Nat)
  | [], lang => [(lang, 1)]
  | (l, n) :: rest, lang =>
    if l = lang then (l, n + 1) :: rest else (l, n) :: bump rest lang

/-- `file_count[lang]` (0 when absent). -/
def lookupCount : List (String × Nat) → String → Nat
  | [], _ => 0
  | (l, n) :: rest, lang => if l = lang then n else lookupCount rest lang

/-- Sum of all per-language counts. -/
def sumCounts (c : List (String × Nat)) : Nat := (c.map Prod.snd).sum

/-- Inner `for lang, patterns in LANGUAGE_PATTERNS.items()` loop of
`detect_repository_languages` on one file: every matching pattern bumps
that language's count and the shared total. -/
def foldPats (ps : List LangPattern) (f : FileEntry)
    (acc : List (String × Nat) × Nat) : List (String × Nat) × Nat :=
  ps.foldl (fun a p => if matchesPat f p then (bump a.1 p.lang, a.2 + 1) else a) acc

/-- Processing of one walked file: skipped files leave the state alone,
otherwise the pattern loop runs. -/
def processFile (acc : List (String × Nat) × Nat) (f : FileEntry) :
    List (String × Nat) × Nat :=
  if skipFile f then acc else foldPats LANGUAGE_PATTERNS f acc

/-- The counting phase of `detect_repository_languages` over the walked
files: `file_count` and `total_files`. -/
def detectCounts (files : List FileEntry) : List (String × Nat) × Nat :=
  files.foldl processFile ([], 0)

/-- `detect_repository_languages`: confidence per language is
`count / total_files` (exact arithmetic over ℚ models the float division);
when no file matched, the mapping is empty. -/
def detect_repository_languages (files : List FileEntry) : List (String × Rat) :=
  let r := detectCounts files
  if r.2 > 0 then r.1.map (fun p => (p.1, (p.2 : Rat) / (r.2 : Rat))) else []

/-- The per-file counting predicate of the detector, as the code implements
it: the file is not skipped (no `.git` component, size within the 1 MB
ceiling) and some pattern of the given language matches it. -/
def countsTowards (f : FileEntry) (lang : String) : Bool :=
  !skipFile f &&
    LANGUAGE_PATTERNS.any (fun p => p.lang == lang && matchesPat f p)

/-! ## Analyzer selection and dispatch -/

/-- The `ANALYSIS_TOOLS` table. -/
def ANALYSIS_TOOLS : List (String × List String) :=
  [ ("go", ["gocyclo", "golangci-lint", "trivy"]),
    ("java", ["pmd", "trivy"]),
    ("python", ["pylint", "bandit", "trivy"]),
    ("javascript", ["eslint", "trivy"]) ]

/-- Association-list lookup modelling `dict.get` with default `[]`. -/
def toolsFor : List (String × List String) → String → List String
  | [], _ => []
  | (l, ts) :: rest, lang => if l = lang then ts else toolsFor rest lang

/-- Add an element to a duplicate-free list (models `set.update`). -/
def addTool (acc : List String) (t : String) : List String :=
  if acc.contains t then acc else acc ++ [t]

/-- `get_analysis_tools(languages, min_confidence=0.1)`: the union of the
tools registered for every language whose confidence meets the
threshold. -/
def get_analysis_tools (languages : List (String × Rat))
    (min_confidence : Rat) : List String :=
  languages.foldl
    (fun acc lc =>
      if lc.2 ≥ min_confidence then
        (toolsFor ANALYSIS_TOOLS lc.1).foldl addTool acc
      else acc)
    []

/-- Values of the Python dicts the pipeline builds: strings, numbers,
nested dicts, and opaque tool payloads. -/
inductive PyVal where
  | s (v : String)
  | q (v : Rat)
  | dict (entries : List (String × PyVal))
deriving Repr

/-- Dict lookup on a report. -/
def lookupVal : List (String × PyVal) → String → Option PyVal
  | [], _ => none
  | (k, v) :: rest, key => if k = key then some v else lookupVal rest key

/-- `run_language_specific_analysis(repo_path, language)`: the fixed
dispatch table from language name to the tools actually invoked; returns
the per-tool result dict together with the list of tools executed.
`payloadOf` abstracts each `run_*` helper's return value. -/
def run_language_specific_analysis (payloadOf : String → PyVal)
    (lang : String) : List (String × PyVal) × List String :=
  if lang = "go" then ([("gocyclo", payloadOf "gocyclo")], ["gocyclo"])
  else if lang = "java" then ([("pmd", payloadOf "pmd")], ["pmd"])
  else if lang = "python" then
    ([("pylint", payloadOf "pylint"), ("bandit", payloadOf "bandit")],
     ["pylint", "bandit"])
  else if lang = "javascript" then ([("eslint", payloadOf "eslint")], ["eslint"])
  else ([], [])

/-- `analyze_code_quality`: clone, detect (or accept the override), select
tools, run the per-language analyses for every language at confidence at
least 0.1, then run trivy. Returns the caller-facing report dict together
with the list of external analyzer tools executed, in order. `cloneResult`
abstracts the `clone_repo` call; `files` is the workspace content the
detector walks; `payloadOf` abstracts the raw tool runners (with
`payloadOf "trivy"` the `run_trivy_scan` result). -/
def analyze_code_quality (cloneResult : Except String String)
    (language : Option String) (files : List FileEntry)
    (payloadOf : String → PyVal) : List (String × PyVal) × List String :=
  match cloneResult with
  | Except.error e =>
    ([("status", PyVal.s "error"),
      ("error", PyVal.s ("Code quality analysis failed: " ++ e))], [])
  | Except.ok _ =>
    let detected : List (String × Rat) :=
      match language with
      | none => detect_repository_languages files
      | some l => [(strToLower l, 1)]
    if language = none ∧ detected = [] then
      ([("status", PyVal.s "error"),
        ("error", PyVal.s "No supported programming languages detected")], [])
    else
      let tools := get_analysis_tools detected (1 / 10)
      if tools = [] then
        ([("status", PyVal.s "error"),
          ("error", PyVal.s "No suitable analysis tools found for detected languages")],
         [])
      else
        let analysisRan := detected.foldl
          (fun (acc : List (String × PyVal) × List String) lc =>
            if lc.2 ≥ 1 / 10 then
              let r := run_language_specific_analysis payloadOf lc.1
              (acc.1 ++ [(lc.1, PyVal.dict r.1)], acc.2 ++ r.2)
            else acc)
          ([], [])
        (([("status", PyVal.s "success"),
           ("languages", PyVal.dict (detected.map (fun lc => (lc.1, PyVal.q lc.2)))),
           ("analysis", PyVal.dict analysisRan.1),
           ("security_scan", payloadOf "trivy")]),
         analysisRan.2 ++ ["trivy"])

/-! ## Tool runners (`run_pylint_analysis`, `run_bandit_analysis`) -/

/-- A completed `subprocess.run`: exit code and captured output. -/
structure ProcResult where
  exitCode : Int
  stdout : String
  stderr : String
deriving DecidableEq, Repr

/-- Value returned by the JSON tool runners: either the parsed JSON
payload (abstracted to a tag) or an error dict of the form
`{"error": msg}`. -/
inductive ToolPayload where
  | parsed (tag : String)
  | errorMsg (msg : String)
deriving DecidableEq, Repr

/-- The spec's error outcomes are exactly the `{"error": ...}` dicts. -/
def isErrorPayload : ToolPayload → Bool
  | ToolPayload.errorMsg _ => true
  | ToolPayload.parsed _ => false

/-- `run_pylint_analysis`: `json.loads(result.stdout) if result.stdout
else {"error": "No output from pylint"}`; a `json.loads` exception is
caught and wrapped. `parseJson` abstracts `json.loads` (error value =
exception text). -/
def run_pylint_analysis (r : ProcResult)
    (parseJson : String → Except String String) : ToolPayload :=
  if r.stdout == "" then ToolPayload.errorMsg "No output from pylint"
  else
    match parseJson r.stdout with
    | Except.ok t => ToolPayload.parsed t
    | Except.error e => ToolPayload.errorMsg ("Pylint analysis failed: " ++ e)

/-- `run_bandit_analysis`, same shape as `run_pylint_analysis`. -/
def run_bandit_analysis (r : ProcResult)
    (parseJson : String → Except String String) : ToolPayload :=
  if r.stdout == "" then ToolPayload.errorMsg "No output from bandit"
  else
    match parseJson r.stdout with
    | Except.ok t => ToolPayload.parsed t
    | Except.error e => ToolPayload.errorMsg ("Bandit analysis failed: " ++ e)

/-! ## Subprocess invocations (timeout modelling) -/

/-- The arguments each tool runner passes to `subprocess.run`. `timeoutSecs`
models the `timeout=` keyword; `none` means the keyword is not passed and
the process may run forever. -/
structure ProcInvocation where
  argv : List String
  cwd : Option String
  captureOutput : Bool
  textMode : Bool
  check : Bool
  timeoutSecs : Option Nat
deriving DecidableEq, Repr

/-- The `subprocess.run` call of `run_trivy_scan`. -/
def trivyInvocation (repoPath : String) : ProcInvocation :=
  { argv := ["trivy", "fs", "--format", "json", repoPath], cwd := none,
    captureOutput := true, textMode := true, check := true, timeoutSecs := none }

/-- The `subprocess.run` call of `run_gocyclo_analysis`. -/
def gocycloInvocation (repoPath : String) : ProcInvocation :=
  { argv := ["gocyclo", "-avg", "-over=10", "."], cwd := some repoPath,
    captureOutput := true, textMode := true, check := false, timeoutSecs := none }

/-- The `subprocess.run` call of `run_pmd_analysis`. -/
def pmdInvocation (repoPath outputPath : String) : ProcInvocation :=
  { argv := ["pmd", "check", "-d", repoPath, "-R", "rulesets/java/quickstart.xml",
             "-f", "xml", "-r", outputPath],
    cwd := none, captureOutput := true, textMode := true, check := false,
    timeoutSecs := none }

/-- The `subprocess.run` call of `run_pylint_analysis`. -/
def pylintInvocation (repoPath : String) : ProcInvocation :=
  { argv := ["pylint", "--output-format=json", repoPath], cwd := none,
    captureOutput := true, textMode := true, check := false, timeoutSecs := none }

/-- The `subprocess.run` call of `run_bandit_analysis`. -/
def banditInvocation (repoPath : String) : ProcInvocation :=
  { argv := ["bandit", "-r", "-f", "json", repoPath], cwd := none,
    captureOutput := true, textMode := true, check := false, timeoutSecs := none }

/-- The `subprocess.run` call of `run_eslint_analysis`. -/
def eslintInvocation (repoPath : String) : ProcInvocation :=
  { argv := ["eslint", "-f", "json", repoPath], cwd := none,
    captureOutput := true, textMode := true, check := false, timeoutSecs := none }

/-! ## String append injectivity helpers -/

/-- Strings with equal character data are equal. -/
theorem strDataInj {s t : String} (h : s.data = t.data) : s = t := by
  cases s; cases t; cases h; rfl

/-- Character data of an appended string. -/
@[simp] theorem strDataAppend (s t : String) : (s ++ t).data = s.data ++ t.data := rfl

/-- The middle component of `u ++ ":" ++ m ++ ":" ++ b` is determined by
the whole string once `u` and `b` are fixed. -/
theorem colonMidInj (u b m₁ m₂ : String)
    (h : u ++ ":" ++ m₁ ++ ":" ++ b = u ++ ":" ++ m₂ ++ ":" ++ b) : m₁ = m₂ := by
  have h₂ : u.data ++ ([':'] ++ (m₁.data ++ ([':'] ++ b.data))) =
      u.data ++ ([':'] ++ (m₂.data ++ ([':'] ++ b.data))) := by
    have h₁ := congrArg String.data h
    simpa [List.append_assoc, show (":" : String).data = [':'] from rfl] using h₁
  have h₃ := List.append_cancel_left (List.append_cancel_left h₂)
  exact strDataInj (List.append_cancel_right h₃)

/-- The last component of `p ++ b` is determined once the prefix `p` is
fixed. -/
theorem colonLastInj (u m b₁ b₂ : String)
    (h : u ++ ":" ++ m ++ ":" ++ b₁ = u ++ ":" ++ m ++ ":" ++ b₂) : b₁ = b₂ := by
  have h₂ : (u.data ++ ([':'] ++ (m.data ++ [':']))) ++ b₁.data =
      (u.data ++ ([':'] ++ (m.data ++ [':']))) ++ b₂.data := by
    have h₁ := congrArg String.data h
    simpa [List.append_assoc, show (":" : String).data = [':'] from rfl] using h₁
  exact strDataInj (List.append_cancel_left h₂)

/-- Claim C1, counterexample: the identities
`(url, no credential, branch "default")` and `(url, no credential, no
branch)` differ in the branch field, yet their cache-key strings — and
hence their derived cache keys, the digest being a function of that
string — coincide, because `branch or 'default'` collapses both to the
same component. -/
theorem cache_key_distinct_cex :
    (((some "default" : Option String) == none) = false) ∧
    cache_key_string "https://gitlab.com/acme/app" none (some "default") =
      cache_key_string "https://gitlab.com/acme/app" none none :=
  ⟨by decide, rfl⟩

/-- Claim C1, amended: equal identities always derive the same cache key;
identities differing only in the credential secret derive distinct
pre-digest cache-key strings provided the normalized secrets (absent ↦
empty string) differ, and likewise for the branch with normalization
(absent or empty ↦ "default"); distinctness fails exactly when the
normalization collapses the differing field, e.g. branch absent versus
branch "default". -/
theorem cache_key_amended :
    (∀ u c₁ c₂ b, credPart c₁ ≠ credPart c₂ →
      cache_key_string u c₁ b ≠ cache_key_string u c₂ b) ∧
    (∀ u c b₁ b₂, branchPart b₁ ≠ branchPart b₂ →
      cache_key_string u c b₁ ≠ cache_key_string u c b₂) ∧
    (∀ u₁ u₂ c₁ c₂ b₁ b₂, u₁ = u₂ → c₁ = c₂ → b₁ = b₂ →
      cache_key_string u₁ c₁ b₁ = cache_key_string u₂ c₂ b₂) := by
  refine ⟨?_, ?_, ?_⟩
  · intro u c₁ c₂ b hne he
    exact hne (colonMidInj u (branchPart b) (credPart c₁) (credPart c₂) he)
  · intro u c b₁ b₂ hne he
    exact hne (colonLastInj u (credPart c) (branchPart b₁) (branchPart b₂) he)
  · intro u₁ u₂ c₁ c₂ b₁ b₂ hu hc hb
    rw [hu, hc, hb]

/-- Claim C1, witness for the amended theorem: two identities differing
only in the api key get distinct cache-key strings. -/
theorem cache_key_amended_witness :
    (cache_key_string "https://gitlab.com/acme/app" (some ⟨"tokenA"⟩) none ==
      cache_key_string "https://gitlab.com/acme/app" (some ⟨"tokenB"⟩) none) = false := by
  have h := cache_key_amended.1 "https://gitlab.com/acme/app"
    (some ⟨"tokenA"⟩) (some ⟨"tokenB"⟩) none (by decide)
  simpa using h

/-- Claim C2, counterexample: with an existing slot that opens as a
non-bare repository whose remote matches the authenticated URL, a fetch
failure does NOT return the existing local state untouched — the slot is
deleted (`removedExisting`) and a fresh clone is performed
(`cloneAttempted`), because the bare `except:` around the reuse block
catches the fetch exception and falls through to the clone path. -/
theorem clone_fetch_failure_cex :
    (clone_repo (fun s => s) "/tmp"
        ⟨true, some ⟨false, "https://gitlab.com/acme/app"⟩, false, true, true⟩
        "https://gitlab.com/acme/app" none none).removedExisting = true ∧
    (clone_repo (fun s => s) "/tmp"
        ⟨true, some ⟨false, "https://gitlab.com/acme/app"⟩, false, true, true⟩
        "https://gitlab.com/acme/app" none none).cloneAttempted = true ∧
    (clone_repo (fun s => s) "/tmp"
        ⟨true, some ⟨false, "https://gitlab.com/acme/app"⟩, false, true, true⟩
        "https://gitlab.com/acme/app" none none).fetched = false :=
  ⟨rfl, rfl, rfl⟩

/-- Claim C2, amended: if the slot exists, opens as a non-bare repository
with the expected remote, and the fetch fails, then the slot is destroyed
and a fresh clone is attempted; the request returns the re-cloned
directory when that clone succeeds and fails with the cloning error when
it does not — the existing (stale) state is never returned. -/
theorem clone_fetch_failure_reclones (digest : String → String)
    (tmp url : String) (creds : Option GitLabCredentials)
    (branch : Option String) (env : GitEnv)
    (h₁ : env.slotExists = true)
    (h₂ : env.openResult = some ⟨false, get_authenticated_url url creds⟩)
    (h₃ : env.fetchOk = false) :
    (clone_repo digest tmp env url creds branch).removedExisting = true ∧
    (clone_repo digest tmp env url creds branch).cloneAttempted = true ∧
    (env.cloneOk = true →
      (clone_repo digest tmp env url creds branch).result =
        Except.ok (repoCacheDir digest tmp url creds branch)) ∧
    (env.cloneOk = false →
      (clone_repo digest tmp env url creds branch).result =
        Except.error "Repository cloning failed") := by
  cases h₄ : env.cloneOk <;>
    simp [clone_repo, freshClone, h₁, h₂, h₃, h₄]

/-- Claim C2, witness for the amended theorem at a concrete environment
whose re-clone succeeds. -/
theorem clone_fetch_failure_reclones_witness :
    (clone_repo (fun s => s) "/var/tmp"
        ⟨true, some ⟨false, "https://gitlab.com/g/h"⟩, false, true, true⟩
        "https://gitlab.com/g/h" none none).removedExisting = true ∧
    (clone_repo (fun s => s) "/var/tmp"
        ⟨true, some ⟨false, "https://gitlab.com/g/h"⟩, false, true, true⟩
        "https://gitlab.com/g/h" none none).cloneAttempted = true ∧
    (clone_repo (fun s => s) "/var/tmp"
        ⟨true, some ⟨false, "https://gitlab.com/g/h"⟩, false, true, true⟩
        "https://gitlab.com/g/h" none none).result =
      Except.ok (repoCacheDir (fun s => s) "/var/tmp" "https://gitlab.com/g/h" none none) := by
  have h := clone_fetch_failure_reclones (fun s => s) "/var/tmp" "https://gitlab.com/g/h"
    none none ⟨true, some ⟨false, "https://gitlab.com/g/h"⟩, false, true, true⟩
    rfl rfl rfl
  exact ⟨h.1, h.2.1, h.2.2.1 rfl⟩

/-- Claim C7: acquiring the same identity twice in sequence — first with
no slot present and a succeeding clone, then with the created slot valid
(non-bare, matching remote) and the remote unchanged — returns the same
directory path both times, and the second acquisition fetches (and checks
the requested branch out) instead of cloning. -/
theorem clone_repo_reuse (digest : String → String) (tmp url : String)
    (creds : Option GitLabCredentials) (branch : Option String)
    (env₁ env₂ : GitEnv)
    (h₁ : env₁.slotExists = false) (h₂ : env₁.cloneOk = true)
    (h₃ : env₂.slotExists = true)
    (h₄ : env₂.openResult = some ⟨false, get_authenticated_url url creds⟩)
    (h₅ : env₂.fetchOk = true) (h₆ : env₂.checkoutOk = true) :
    (clone_repo digest tmp env₁ url creds branch).result =
      Except.ok (repoCacheDir digest tmp url creds branch) ∧
    (clone_repo digest tmp env₂ url creds branch).result =
      Except.ok (repoCacheDir digest tmp url creds branch) ∧
    (clone_repo digest tmp env₂ url creds branch).cloneAttempted = false ∧
    (clone_repo digest tmp env₂ url creds branch).fetched = true ∧
    (branch.isSome = true →
      (clone_repo digest tmp env₂ url creds branch).checkedOut = true) := by
  cases branch <;>
    simp [clone_repo, freshClone, h₁, h₂, h₃, h₄, h₅, h₆]

/-- Claim C7, witness: concrete double acquisition with a requested
branch. -/
theorem clone_repo_reuse_witness :
    (clone_repo (fun s => s) "/tmp" ⟨false, none, true, true, true⟩
        "https://gitlab.com/a/b" none (some "main")).result =
      Except.ok (repoCacheDir (fun s => s) "/tmp" "https://gitlab.com/a/b" none (some "main")) ∧
    (clone_repo (fun s => s) "/tmp"
        ⟨true, some ⟨false, "https://gitlab.com/a/b"⟩, true, true, true⟩
        "https://gitlab.com/a/b" none (some "main")).result =
      Except.ok (repoCacheDir (fun s => s) "/tmp" "https://gitlab.com/a/b" none (some "main")) ∧
    (clone_repo (fun s => s) "/tmp"
        ⟨true, some ⟨false, "https://gitlab.com/a/b"⟩, true, true, true⟩
        "https://gitlab.com/a/b" none (some "main")).cloneAttempted = false ∧
    (clone_repo (fun s => s) "/tmp"
        ⟨true, some ⟨false, "https://gitlab.com/a/b"⟩, true, true, true⟩
        "https://gitlab.com/a/b" none (some "main")).fetched = true ∧
    (clone_repo (fun s => s) "/tmp"
        ⟨true, some ⟨false, "https://gitlab.com/a/b"⟩, true, true, true⟩
        "https://gitlab.com/a/b" none (some "main")).checkedOut = true := by
  have h := clone_repo_reuse (fun s => s) "/tmp" "https://gitlab.com/a/b" none (some "main")
    ⟨false, none, true, true, true⟩
    ⟨true, some ⟨false, "https://gitlab.com/a/b"⟩, true, true, true⟩
    rfl rfl rfl rfl rfl rfl
  exact ⟨h.1, h.2.1, h.2.2.1, h.2.2.2.1, h.2.2.2.2 rfl⟩

/-- Claim C8: when no slot exists and the clone fails, the partially
created directory is removed, the operation fails with the
cloning-failure error (the spec's `SourceUnavailable`), and no slot
remains for the cache key afterwards. -/
theorem clone_failure_cleanup (digest : String → String) (tmp url : String)
    (creds : Option GitLabCredentials) (branch : Option String) (env : GitEnv)
    (h₁ : env.slotExists = false) (h₂ : env.cloneOk = false) :
    (clone_repo digest tmp env url creds branch).result =
      Except.error "Repository cloning failed" ∧
    (clone_repo digest tmp env url creds branch).removedPartial = true ∧
    (clone_repo digest tmp env url creds branch).finalSlotExists = false ∧
    (clone_repo digest tmp env url creds branch).cloneAttempted = true := by
  simp [clone_repo, freshClone, h₁, h₂]

/-- Claim C8, witness at a concrete failing environment. -/
theorem clone_failure_cleanup_witness :
    (clone_repo (fun s => s) "/tmp" ⟨false, none, true, true, false⟩
        "https://gitlab.com/c/d" none none).result =
      Except.error "Repository cloning failed" ∧
    (clone_repo (fun s => s) "/tmp" ⟨false, none, true, true, false⟩
        "https://gitlab.com/c/d" none none).removedPartial = true ∧
    (clone_repo (fun s => s) "/tmp" ⟨false, none, true, true, false⟩
        "https://gitlab.com/c/d" none none).finalSlotExists = false ∧
    (clone_repo (fun s => s) "/tmp" ⟨false, none, true, true, false⟩
        "https://gitlab.com/c/d" none none).cloneAttempted = true :=
  clone_failure_cleanup (fun s => s) "/tmp" "https://gitlab.com/c/d" none none
    ⟨false, none, true, true, false⟩ rfl rfl

/-- Claim C3, counterexample: a pylint (resp. bandit) run that exits zero
with empty stdout is recorded as the error payload
`{"error": "No output from pylint"}` — an error outcome — not as a valid
empty `no-findings` result. -/
theorem empty_output_error_cex :
    run_pylint_analysis ⟨0, "", ""⟩ (fun s => Except.ok s) =
      ToolPayload.errorMsg "No output from pylint" ∧
    isErrorPayload (run_pylint_analysis ⟨0, "", ""⟩ (fun s => Except.ok s)) = true ∧
    run_bandit_analysis ⟨0, "", ""⟩ (fun s => Except.ok s) =
      ToolPayload.errorMsg "No output from bandit" ∧
    isErrorPayload (run_bandit_analysis ⟨0, "", ""⟩ (fun s => Except.ok s)) = true :=
  ⟨rfl, rfl, rfl, rfl⟩

/-- Claim C3, amended: for every pylint or bandit run whose stdout is
empty — whatever the exit code — the recorded payload is the error dict
`{"error": "No output from <tool>"}`, an error outcome rather than a
`no-findings` result. -/
theorem empty_output_is_error (r : ProcResult)
    (parseJson : String → Except String String) (h : r.stdout = "") :
    run_pylint_analysis r parseJson = ToolPayload.errorMsg "No output from pylint" ∧
    run_bandit_analysis r parseJson = ToolPayload.errorMsg "No output from bandit" ∧
    isErrorPayload (run_pylint_analysis r parseJson) = true := by
  simp [run_pylint_analysis, run_bandit_analysis, isErrorPayload, h]

/-- Claim C3, witness for the amended theorem. -/
theorem empty_output_is_error_witness :
    run_pylint_analysis ⟨0, "", "warnings"⟩ (fun s => Except.ok s) =
      ToolPayload.errorMsg "No output from pylint" ∧
    run_bandit_analysis ⟨0, "", "warnings"⟩ (fun s => Except.ok s) =
      ToolPayload.errorMsg "No output from bandit" ∧
    isErrorPayload (run_pylint_analysis ⟨0, "", "warnings"⟩ (fun s => Except.ok s)) = true :=
  empty_output_is_error ⟨0, "", "warnings"⟩ (fun s => Except.ok s) rfl

/-- Claim C5, counterexample: the trivy and pylint subprocess invocations
pass no `timeout=` bound at all, so no fixed upper bound on a tool's
wall-clock time is enforced and no process is ever terminated for
exceeding one. -/
theorem tool_timeout_cex :
    (trivyInvocation "/tmp/repo").timeoutSecs = none ∧
    (pylintInvocation "/tmp/repo").timeoutSecs = none :=
  ⟨rfl, rfl⟩

/-- Claim C5, amended: no analyzer subprocess invocation carries any
timeout bound — all six tool runners call `subprocess.run` without a
`timeout=` argument, so a tool exceeding any wall-clock bound is never
terminated and no `timeout` outcome can be recorded. -/
theorem no_tool_timeout (repoPath outputPath : String) :
    (trivyInvocation repoPath).timeoutSecs = none ∧
    (gocycloInvocation repoPath).timeoutSecs = none ∧
    (pmdInvocation repoPath outputPath).timeoutSecs = none ∧
    (pylintInvocation repoPath).timeoutSecs = none ∧
    (banditInvocation repoPath).timeoutSecs = none ∧
    (eslintInvocation repoPath).timeoutSecs = none :=
  ⟨rfl, rfl, rfl, rfl, rfl, rfl⟩

/-! ## Report shape and trivy dispatch (claims C4 and C9) -/

/-- Claim C9, counterexample: a successful code-quality report (here:
language override `python` on an acquired workspace) carries exactly the
keys status, languages, analysis, security_scan — there is no `summary`
key; the severity-tally summary exists only in the separate
`security_scan_repository` operation. -/
theorem analyze_summary_missing_cex :
    lookupVal (analyze_code_quality (Except.ok "/tmp/repo") (some "python") []
        (fun t => PyVal.s t)).1 "status" = some (PyVal.s "success") ∧
    lookupVal (analyze_code_quality (Except.ok "/tmp/repo") (some "python") []
        (fun t => PyVal.s t)).1 "summary" = none := by
  constructor <;>
    simp [analyze_code_quality, get_analysis_tools, toolsFor, ANALYSIS_TOOLS,
      addTool, run_language_specific_analysis, lookupVal, strToLower, lowerChar,
      show ((1 : ℚ) ≥ 1 / 10) from by norm_num,
      show (((10 : ℚ))⁻¹ ≤ 1) from by norm_num,
      show ¬((1 : ℚ) < ((10 : ℚ))⁻¹) from by norm_num]

/-- Claim C9, amended: every report the code-quality operation returns
with status `success` has exactly the keys
`status, languages, analysis, security_scan` — no `summary` field is ever
present; derived severity tallies appear only in the separate
`security_scan_repository` report. -/
theorem analyze_success_shape (cloneResult : Except String String)
    (language : Option String) (files : List FileEntry)
    (payloadOf : String → PyVal)
    (h : lookupVal (analyze_code_quality cloneResult language files payloadOf).1
      "status" = some (PyVal.s "success")) :
    (analyze_code_quality cloneResult language files payloadOf).1.map Prod.fst =
      ["status", "languages", "analysis", "security_scan"] ∧
    lookupVal (analyze_code_quality cloneResult language files payloadOf).1
      "summary" = none := by
  cases cloneResult with
  | error e => simp [analyze_code_quality, lookupVal] at h
  | ok p =>
    simp only [analyze_code_quality] at h ⊢
    split at h
    next hc₁ => simp [lookupVal] at h
    next hc₁ =>
      split at h
      next hc₂ => simp [lookupVal] at h
      next hc₂ =>
        rw [if_neg hc₁, if_neg hc₂]
        simp [lookupVal]

/-- Claim C9, witness for the amended theorem at the concrete `python`
override input. -/
theorem analyze_success_shape_witness :
    (analyze_code_quality (Except.ok "/tmp/repo") (some "python") []
        (fun t => PyVal.s t)).1.map Prod.fst =
      ["status", "languages", "analysis", "security_scan"] ∧
    lookupVal (analyze_code_quality (Except.ok "/tmp/repo") (some "python") []
        (fun t => PyVal.s t)).1 "summary" = none :=
  analyze_success_shape (Except.ok "/tmp/repo") (some "python") []
    (fun t => PyVal.s t)
    (by simp [analyze_code_quality, get_analysis_tools, toolsFor, ANALYSIS_TOOLS,
      addTool, run_language_specific_analysis, lookupVal, strToLower, lowerChar,
      show ((1 : ℚ) ≥ 1 / 10) from by norm_num,
      show (((10 : ℚ))⁻¹ ≤ 1) from by norm_num,
      show ¬((1 : ℚ) < ((10 : ℚ))⁻¹) from by norm_num])

/-- Claim C4, counterexample: with the language override `ruby` — a
language whose detected map selects no analyzer tools — the operation
returns an error report before any tool runs: the executed-tool list is
empty (trivy is NOT executed) and the report has no security_scan
entry. -/
theorem analyze_trivy_cex :
    (analyze_code_quality (Except.ok "/tmp/repo") (some "ruby") []
        (fun t => PyVal.s t)).2 = [] ∧
    lookupVal (analyze_code_quality (Except.ok "/tmp/repo") (some "ruby") []
        (fun t => PyVal.s t)).1 "security_scan" = none ∧
    lookupVal (analyze_code_quality (Except.ok "/tmp/repo") (some "ruby") []
        (fun t => PyVal.s t)).1 "status" = some (PyVal.s "error") := by
  refine ⟨?_, ?_, ?_⟩ <;>
    simp [analyze_code_quality, get_analysis_tools, toolsFor, ANALYSIS_TOOLS,
      addTool, lookupVal, strToLower, lowerChar,
      show ((1 : ℚ) ≥ 1 / 10) from by norm_num,
      show (((10 : ℚ))⁻¹ ≤ 1) from by norm_num,
      show ¬((1 : ℚ) < ((10 : ℚ))⁻¹) from by norm_num]

/-- Claim C4, amended: the vulnerability scanner trivy is executed and its
result included as the `security_scan` entry whenever the operation
returns a success report — that is, whenever the selected tool list is
non-empty; an override naming a language with no registered tools yields
an error report with no trivy run at all. -/
theorem analyze_trivy_on_success (cloneResult : Except String String)
    (language : Option String) (files : List FileEntry)
    (payloadOf : String → PyVal)
    (h : lookupVal (analyze_code_quality cloneResult language files payloadOf).1
      "status" = some (PyVal.s "success")) :
    "trivy" ∈ (analyze_code_quality cloneResult language files payloadOf).2 ∧
    lookupVal (analyze_code_quality cloneResult language files payloadOf).1
      "security_scan" = some (payloadOf "trivy") := by
  cases cloneResult with
  | error e => simp [analyze_code_quality, lookupVal] at h
  | ok p =>
    simp only [analyze_code_quality] at h ⊢
    split at h
    next hc₁ => simp [lookupVal] at h
    next hc₁ =>
      split at h
      next hc₂ => simp [lookupVal] at h
      next hc₂ =>
        rw [if_neg hc₁, if_neg hc₂]
        simp [lookupVal]

/-- Claim C4, witness for the amended theorem: with the `go` override the
success report carries the trivy result and trivy is among the executed
tools. -/
theorem analyze_trivy_on_success_witness :
    "trivy" ∈ (analyze_code_quality (Except.ok "/tmp/repo") (some "go") []
        (fun t => PyVal.s t)).2 ∧
    lookupVal (analyze_code_quality (Except.ok "/tmp/repo") (some "go") []
        (fun t => PyVal.s t)).1 "security_scan" =
      some ((fun t => PyVal.s t) "trivy") :=
  analyze_trivy_on_success (Except.ok "/tmp/repo") (some "go") []
    (fun t => PyVal.s t)
    (by simp [analyze_code_quality, get_analysis_tools, toolsFor, ANALYSIS_TOOLS,
      addTool, run_language_specific_analysis, lookupVal, strToLower, lowerChar,
      show ((1 : ℚ) ≥ 1 / 10) from by norm_num,
      show (((10 : ℚ))⁻¹ ≤ 1) from by norm_num,
      show ¬((1 : ℚ) < ((10 : ℚ))⁻¹) from by norm_num])

/-! ## Counting lemmas for the language detector -/

/-- Bumping a language changes exactly that language's count. -/
theorem lookupCount_bump (c : List (String × Nat)) (l lang : String) :
    lookupCount (bump c l) lang =
      lookupCount c lang + (if l = lang then 1 else 0) := by
  induction c with
  | nil =>
    by_cases h : l = lang <;> simp [bump, lookupCount, h]
  | cons hd tl ih =>
    obtain ⟨k, n⟩ := hd
    by_cases hk : k = l
    · subst hk
      by_cases hkl : k = lang <;> simp [bump, lookupCount, hkl]
    · by_cases hkl : k = lang
      · subst hkl
        have : ¬l = k := fun he => hk he.symm
        simp [bump, hk, lookupCount, this]
      · simp [bump, hk, lookupCount, hkl, ih]

/-- Bumping adds one to the total of all counts. -/
theorem sumCounts_bump (c : List (String × Nat)) (l : String) :
    sumCounts (bump c l) = sumCounts c + 1 := by
  induction c with
  | nil => simp [bump, sumCounts]
  | cons hd tl ih =>
    obtain ⟨k, n⟩ := hd
    by_cases hk : k = l <;> simp [bump, hk, sumCounts] <;>
      simp [sumCounts] at ih <;> omega

/-- Effect of the pattern loop on one language's count: one increment per
pattern of that name that matches the file. -/
theorem foldPats_lookup (ps : List LangPattern) (f : FileEntry)
    (acc : List (String × Nat) × Nat) (lang : String) :
    lookupCount (foldPats ps f acc).1 lang =
      lookupCount acc.1 lang +
        ps.countP (fun p => p.lang == lang && matchesPat f p) := by
  induction ps generalizing acc with
  | nil => simp [foldPats]
  | cons p ps ih =>
    have hstep : foldPats (p :: ps) f acc =
        foldPats ps f (if matchesPat f p then (bump acc.1 p.lang, acc.2 + 1) else acc) := by
      simp [foldPats]
    rw [hstep, ih, List.countP_cons]
    by_cases hm : matchesPat f p
    · by_cases hl : p.lang = lang <;>
        simp [hm, hl, lookupCount_bump] <;> omega
    · have : (p.lang == lang && matchesPat f p) = false := by
        simp [hm]
      simp [hm, this]

/-- Effect of the pattern loop on the running total: one increment per
matching pattern. -/
theorem foldPats_total (ps : List LangPattern) (f : FileEntry)
    (acc : List (String × Nat) × Nat) :
    (foldPats ps f acc).2 = acc.2 + ps.countP (fun p => matchesPat f p) := by
  induction ps generalizing acc with
  | nil => simp [foldPats]
  | cons p ps ih =>
    have hstep : foldPats (p :: ps) f acc =
        foldPats ps f (if matchesPat f p then (bump acc.1 p.lang, acc.2 + 1) else acc) := by
      simp [foldPats]
    rw [hstep, ih, List.countP_cons]
    by_cases hm : matchesPat f p <;> simp [hm] <;> omega

/-- Effect of the pattern loop on the sum of counts: it moves in lockstep
with the running total. -/
theorem foldPats_sum (ps : List LangPattern) (f : FileEntry)
    (acc : List (String × Nat) × Nat) :
    sumCounts (foldPats ps f acc).1 =
      sumCounts acc.1 + ps.countP (fun p => matchesPat f p) := by
  induction ps generalizing acc with
  | nil => simp [foldPats]
  | cons p ps ih =>
    have hstep : foldPats (p :: ps) f acc =
        foldPats ps f (if matchesPat f p then (bump acc.1 p.lang, acc.2 + 1) else acc) := by
      simp [foldPats]
    rw [hstep, ih, List.countP_cons]
    by_cases hm : matchesPat f p <;> simp [hm, sumCounts_bump] <;> omega

/-- Over a pattern list with pairwise-distinct language names, at most one
pattern can carry a given name, so the name-filtered match count is 0 or
1 and coincides with the `any` test. -/
theorem countP_eq_any (ps : List LangPattern) (lang : String)
    (m : LangPattern → Bool) (hnd : (ps.map LangPattern.lang).Nodup) :
    ps.countP (fun p => p.lang == lang && m p) =
      if ps.any (fun p => p.lang == lang && m p) then 1 else 0 := by
  induction ps with
  | nil => simp
  | cons p ps ih =>
    simp only [List.map_cons, List.nodup_cons] at hnd
    obtain ⟨hnotin, hnd'⟩ := hnd
    by_cases hl : p.lang = lang
    · have htail : ps.countP (fun q => q.lang == lang && m q) = 0 := by
        rw [List.countP_eq_zero]
        intro q hq hcontra
        simp only [Bool.and_eq_true, beq_iff_eq] at hcontra
        exact hnotin (hl ▸ hcontra.1 ▸ List.mem_map_of_mem LangPattern.lang hq)
      have hanytail : ps.any (fun q => q.lang == lang && m q) = false := by
        rw [List.any_eq_false]
        intro q hq hcontra
        simp only [Bool.and_eq_true, beq_iff_eq] at hcontra
        exact hnotin (hl ▸ hcontra.1 ▸ List.mem_map_of_mem LangPattern.lang hq)
      rw [List.countP_cons, htail, List.any_cons, hanytail]
      cases hm : m p <;> simp [hl, hm]
    · have hfalse : (p.lang == lang && m p) = false := by simp [hl]
      rw [List.countP_cons, List.any_cons, hfalse, ih hnd']
      simp

/-- The language names of `LANGUAGE_PATTERNS` are pairwise distinct. -/
theorem languagePatterns_names_nodup :
    (LANGUAGE_PATTERNS.map LangPattern.lang).Nodup := by decide

/-- Processing one file increments a language's count exactly when the
file counts toward that language. -/
theorem processFile_lookup (acc : List (String × Nat) × Nat) (f : FileEntry)
    (lang : String) :
    lookupCount (processFile acc f).1 lang =
      lookupCount acc.1 lang + (if countsTowards f lang then 1 else 0) := by
  unfold processFile countsTowards
  by_cases hs : skipFile f
  · simp [hs]
  · have hsf : skipFile f = false := by simpa using hs
    rw [if_neg (by simp [hsf]), foldPats_lookup,
      countP_eq_any LANGUAGE_PATTERNS lang (matchesPat f) languagePatterns_names_nodup]
    simp [hsf]

/-- Processing one file keeps the sum of counts equal to the running
total. -/
theorem processFile_sum_total (acc : List (String × Nat) × Nat) (f : FileEntry)
    (h : sumCounts acc.1 = acc.2) :
    sumCounts (processFile acc f).1 = (processFile acc f).2 := by
  unfold processFile
  by_cases hs : skipFile f
  · simp [hs, h]
  · rw [if_neg hs, foldPats_sum, foldPats_total, h]

/-- Bumping preserves positivity of all recorded counts. -/
theorem bump_allPos (c : List (String × Nat)) (l : String)
    (h : ∀ x ∈ c, 1 ≤ x.2) : ∀ x ∈ bump c l, 1 ≤ x.2 := by
  induction c with
  | nil =>
    intro x hx
    simp [bump] at hx
    simp [hx]
  | cons hd tl ih =>
    obtain ⟨k, n⟩ := hd
    intro x hx
    by_cases hk : k = l
    · subst hk
      simp only [bump, if_pos rfl] at hx
      rcases List.mem_cons.mp hx with hx₂ | hx₂
      · simp [hx₂]
      · exact h x (List.mem_cons_of_mem _ hx₂)
    · simp only [bump, if_neg hk] at hx
      rcases List.mem_cons.mp hx with hx₂ | hx₂
      · exact h x (by simp [hx₂])
      · exact ih (fun y hy => h y (List.mem_cons_of_mem _ hy)) x hx₂

/-- Keys of a bumped counter: unchanged when the language is already
present, extended at the end otherwise. -/
theorem bump_keys (c : List (String × Nat)) (l : String) :
    (bump c l).map Prod.fst =
      if l ∈ c.map Prod.fst then c.map Prod.fst
      else c.map Prod.fst ++ [l] := by
  induction c with
  | nil => simp [bump]
  | cons hd tl ih =>
    obtain ⟨k, n⟩ := hd
    by_cases hk : k = l
    · subst hk
      simp [bump]
    · have hne : ¬l = k := fun he => hk he.symm
      by_cases hmem : l ∈ tl.map Prod.fst <;>
        simp [bump, hk, ih, hmem, hne]

/-- Bumping preserves duplicate-freeness of the recorded keys. -/
theorem bump_keys_nodup (c : List (String × Nat)) (l : String)
    (h : (c.map Prod.fst).Nodup) : ((bump c l).map Prod.fst).Nodup := by
  rw [bump_keys]
  by_cases hmem : l ∈ c.map Prod.fst
  · simpa [hmem] using h
  · rw [if_neg hmem, List.nodup_append]
    refine ⟨h, List.nodup_singleton l, ?_⟩
    intro a ha hb
    simp only [List.mem_singleton] at hb
    subst hb
    exact hmem ha

/-- Any property of the counter preserved by `bump` is preserved by the
pattern loop. -/
theorem foldPats_preserve (ps : List LangPattern) (f : FileEntry)
    (acc : List (String × Nat) × Nat) (P : List (String × Nat) → Prop)
    (hbump : ∀ c l, P c → P (bump c l)) (h : P acc.1) :
    P (foldPats ps f acc).1 := by
  induction ps generalizing acc with
  | nil => simpa [foldPats] using h
  | cons p ps ih =>
    have hstep : foldPats (p :: ps) f acc =
        foldPats ps f (if matchesPat f p then (bump acc.1 p.lang, acc.2 + 1) else acc) := by
      simp [foldPats]
    rw [hstep]
    by_cases hm : matchesPat f p
    · rw [if_pos hm]
      exact ih (bump acc.1 p.lang, acc.2 + 1) (hbump acc.1 p.lang h)
    · rw [if_neg hm]
      exact ih acc h

/-- Processing one file keeps every recorded count at least one. -/
theorem processFile_allPos (acc : List (String × Nat) × Nat) (f : FileEntry)
    (h : ∀ x ∈ acc.1, 1 ≤ x.2) : ∀ x ∈ (processFile acc f).1, 1 ≤ x.2 := by
  unfold processFile
  by_cases hs : skipFile f
  · simpa [hs] using h
  · rw [if_neg hs]
    exact foldPats_preserve LANGUAGE_PATTERNS f acc
      (fun c => ∀ x ∈ c, 1 ≤ x.2) bump_allPos h

/-- Processing one file keeps the recorded keys duplicate-free. -/
theorem processFile_keys_nodup (acc : List (String × Nat) × Nat)
    (f : FileEntry) (h : (acc.1.map Prod.fst).Nodup) :
    ((processFile acc f).1.map Prod.fst).Nodup := by
  unfold processFile
  by_cases hs : skipFile f
  · simpa [hs] using h
  · rw [if_neg hs]
    exact foldPats_preserve LANGUAGE_PATTERNS f acc
      (fun c => (c.map Prod.fst).Nodup) bump_keys_nodup h

/-- On an association list with duplicate-free keys, membership determines
the lookup. -/
theorem lookupCount_mem (c : List (String × Nat))
    (h : (c.map Prod.fst).Nodup) (x : String × Nat) (hx : x ∈ c) :
    lookupCount c x.1 = x.2 := by
  induction c with
  | nil => cases hx
  | cons hd tl ih =>
    obtain ⟨k, n⟩ := hd
    simp only [List.map_cons, List.nodup_cons] at h
    obtain ⟨hk, htl⟩ := h
    rcases List.mem_cons.mp hx with hx₂ | hx₂
    · subst hx₂
      simp [lookupCount]
    · have hne : k ≠ x.1 := by
        intro he
        apply hk
        rw [he]
        exact List.mem_map_of_mem Prod.fst hx₂
      simp only [lookupCount, if_neg hne]
      exact ih htl hx₂

/-- Walking the files accumulates, per language, one count for every file
that counts toward it. -/
theorem foldl_processFile_lookup (files : List FileEntry)
    (acc : List (String × Nat) × Nat) (lang : String) :
    lookupCount (files.foldl processFile acc).1 lang =
      lookupCount acc.1 lang + files.countP (fun f => countsTowards f lang) := by
  induction files generalizing acc with
  | nil => simp
  | cons f fs ih =>
    rw [List.foldl_cons, ih, processFile_lookup, List.countP_cons]
    omega

/-- The sum-of-counts/total invariant holds through the whole walk. -/
theorem foldl_processFile_sum (files : List FileEntry)
    (acc : List (String × Nat) × Nat) (h : sumCounts acc.1 = acc.2) :
    sumCounts (files.foldl processFile acc).1 = (files.foldl processFile acc).2 := by
  induction files generalizing acc with
  | nil => simpa using h
  | cons f fs ih =>
    rw [List.foldl_cons]
    exact ih _ (processFile_sum_total acc f h)

/-- Positivity of all recorded counts holds through the whole walk. -/
theorem foldl_processFile_allPos (files : List FileEntry)
    (acc : List (String × Nat) × Nat) (h : ∀ x ∈ acc.1, 1 ≤ x.2) :
    ∀ x ∈ (files.foldl processFile acc).1, 1 ≤ x.2 := by
  induction files generalizing acc with
  | nil => simpa using h
  | cons f fs ih =>
    rw [List.foldl_cons]
    exact ih _ (processFile_allPos acc f h)

/-- Duplicate-freeness of the recorded keys holds through the whole
walk. -/
theorem foldl_processFile_keys_nodup (files : List FileEntry)
    (acc : List (String × Nat) × Nat) (h : (acc.1.map Prod.fst).Nodup) :
    (((files.foldl processFile acc).1).map Prod.fst).Nodup := by
  induction files generalizing acc with
  | nil => simpa using h
  | cons f fs ih =>
    rw [List.foldl_cons]
    exact ih _ (processFile_keys_nodup acc f h)

/-- Dividing every count by the same denominator sums to the total of the
counts divided by it. -/
theorem sum_map_div (c : List (String × Nat)) (t : ℚ) :
    (c.map (fun p => (p.2 : ℚ) / t)).sum = (sumCounts c : ℚ) / t := by
  induction c with
  | nil => simp [sumCounts]
  | cons hd tl ih =>
    simp only [List.map_cons, List.sum_cons, ih, sumCounts]
    rw [div_add_div_same]
    norm_cast

set_option maxRecDepth 4000 in
/-- Claim C6, counterexample: a `.go` file whose extension is in the
table and whose first kilobyte contains the `package ` marker is
nevertheless NOT counted when its size exceeds the 1,000,000-byte
ceiling — the detector returns the empty mapping instead of `{go: 1.0}`,
so extension-plus-marker alone does not characterize counting. -/
theorem detect_count_iff_cex :
    LANGUAGE_PATTERNS.any (fun p => p.lang == "go" &&
      matchesPat ⟨"repo", "big.go", 1000001, "package main"⟩ p) = true ∧
    countsTowards ⟨"repo", "big.go", 1000001, "package main"⟩ "go" = false ∧
    detect_repository_languages [⟨"repo", "big.go", 1000001, "package main"⟩] = [] :=
  ⟨by decide, by decide, by decide⟩

set_option maxRecDepth 4000 in
/-- Claim C6, amended: a file is counted toward a language exactly when it
is not skipped by the walk (its directory path is free of `.git` and its
size is at most the 1 MB ceiling), its extension is in that language's
table and at least one marker token occurs in the first kilobyte of its
content; the running total equals the sum of all per-language counts;
every confidence in the returned mapping is the language's matched-file
count divided by that total; no matches yield the empty mapping; and a
directory with exactly one `.go` file containing `package ` yields
`{go: 1.0}`. -/
theorem detect_languages_spec :
    (∀ files lang, lookupCount (detectCounts files).1 lang =
      files.countP (fun f => countsTowards f lang)) ∧
    (∀ files, sumCounts (detectCounts files).1 = (detectCounts files).2) ∧
    (∀ files lang q, (lang, q) ∈ detect_repository_languages files →
      q = (lookupCount (detectCounts files).1 lang : ℚ) /
        ((detectCounts files).2 : ℚ)) ∧
    detect_repository_languages [] = [] ∧
    detect_repository_languages [⟨"repo", "main.go", 100, "package main"⟩] =
      [("go", 1)] := by
  refine ⟨?_, ?_, ?_, ?_, ?_⟩
  · intro files lang
    have h := foldl_processFile_lookup files ([], 0) lang
    simpa [detectCounts, lookupCount] using h
  · intro files
    exact foldl_processFile_sum files ([], 0) rfl
  · intro files lang q hmem
    unfold detect_repository_languages at hmem
    by_cases ht : (detectCounts files).2 > 0
    · rw [if_pos ht] at hmem
      simp only [List.mem_map] at hmem
      obtain ⟨x, hx, hxe⟩ := hmem
      have hnodup : (((detectCounts files).1).map Prod.fst).Nodup :=
        foldl_processFile_keys_nodup files ([], 0) (by simp)
      have hlook := lookupCount_mem (detectCounts files).1 hnodup x hx
      have he1 : x.1 = lang := congrArg Prod.fst hxe
      have he2 : (x.2 : ℚ) / ((detectCounts files).2 : ℚ) = q :=
        congrArg Prod.snd hxe
      rw [← he2, ← he1, hlook]
    · rw [if_neg ht] at hmem
      cases hmem
  · rfl
  · have h₁ : detectCounts [⟨"repo", "main.go", 100, "package main"⟩] =
        ([("go", 1)], 1) := by decide
    simp [detect_repository_languages, h₁]

/-- Claim C6, witness for the amended theorem: in the one-`.go`-file
workspace the recorded confidence 1 equals the counted-file ratio. -/
theorem detect_languages_spec_witness :
    (1 : ℚ) =
      (lookupCount (detectCounts [⟨"repo", "main.go", 100, "package main"⟩]).1 "go" : ℚ) /
        ((detectCounts [⟨"repo", "main.go", 100, "package main"⟩]).2 : ℚ) :=
  detect_languages_spec.2.2.1 [⟨"repo", "main.go", 100, "package main"⟩] "go" 1
    (by rw [detect_languages_spec.2.2.2.2]; exact List.mem_singleton_self _)

/-- Claim C10: whenever the detector returns a non-empty mapping, every
confidence is strictly positive and at most 1, and in exact arithmetic
the confidences sum to exactly 1. -/
theorem detect_confidences (files : List FileEntry)
    (h : detect_repository_languages files ≠ []) :
    (∀ p ∈ detect_repository_languages files, 0 < p.2 ∧ p.2 ≤ 1) ∧
    ((detect_repository_languages files).map Prod.snd).sum = 1 := by
  unfold detect_repository_languages at h ⊢
  by_cases ht : (detectCounts files).2 > 0
  · rw [if_pos ht] at h ⊢
    have hsum : sumCounts (detectCounts files).1 = (detectCounts files).2 :=
      foldl_processFile_sum files ([], 0) rfl
    have hpos : ∀ x ∈ (detectCounts files).1, 1 ≤ x.2 :=
      foldl_processFile_allPos files ([], 0) (by simp)
    have htq : (0 : ℚ) < ((detectCounts files).2 : ℚ) := by exact_mod_cast ht
    constructor
    · intro p hp
      simp only [List.mem_map] at hp
      obtain ⟨x, hx, hxe⟩ := hp
      have he2 : (x.2 : ℚ) / ((detectCounts files).2 : ℚ) = p.2 :=
        congrArg Prod.snd hxe
      constructor
      · rw [← he2]
        apply div_pos _ htq
        have h₁ := hpos x hx
        exact_mod_cast Nat.lt_of_lt_of_le Nat.zero_lt_one h₁
      · rw [← he2, div_le_one htq]
        have hle : x.2 ≤ (detectCounts files).2 := by
          rw [← hsum]
          exact List.le_sum_of_mem (List.mem_map_of_mem Prod.snd hx)
        exact_mod_cast hle
    · rw [List.map_map]
      have hcomp : (Prod.snd ∘ fun p : String × Nat =>
          ((p.1, (p.2 : ℚ) / ((detectCounts files).2 : ℚ)) : String × ℚ)) =
          fun p : String × Nat => (p.2 : ℚ) / ((detectCounts files).2 : ℚ) := rfl
      rw [hcomp, sum_map_div, hsum]
      exact div_self (ne_of_gt htq)
  · rw [if_neg ht] at h
    exact absurd rfl h

set_option maxRecDepth 4000 in
/-- Claim C10, witness: the confidences of the one-`.go`-file workspace
sum to exactly 1. -/
theorem detect_confidences_witness :
    ((detect_repository_languages
        [⟨"repo", "main.go", 100, "package main"⟩]).map Prod.snd).sum = 1 :=
  (detect_confidences [⟨"repo", "main.go", 100, "package main"⟩] (by decide)).2
